import Mathlib

/-!
Verification model of the dbratelimit library: a token-bucket
rate-limiting facade (RateLimitedDB in main.go) over a SQL database
connection handle. Time is logical and rational-valued; the limiter is
modelled from the specification since the golang.org/x/time/rate
package is an external collaborator of the repository.
-/

/-- Reason the cancellation signal of a context fired: explicit
cancellation versus deadline exceeded. -/
inductive CtxErr
  | canceled
  | deadlineExceeded
deriving DecidableEq, Repr

/-- Logical model of a Go context: an optional absolute logical time at
which its cancellation or deadline signal fires, together with the
reason it fires. A context whose fires field is none never cancels. -/
structure Ctx where
  fires : Option ℚ
  reason : CtxErr
deriving DecidableEq, Repr

/-- Whether the signal of context c has fired at or before time t. -/
def ctxDone (c : Ctx) (t : ℚ) : Bool :=
  match c.fires with
  | none => false
  | some f => f ≤ t

/-- Modelled from the spec: state of the section 4.1 token-bucket
limiter, whose implementation (golang.org/x/time/rate) lies outside the
repository. limit is the refill rate in tokens per second, none standing
for the unlimited rate; burst caps the bucket; tokens and last are the
clock-driven counter; grants counts tokens handed out so far. -/
structure LimState where
  limit : Option ℚ
  burst : ℤ
  tokens : ℚ
  last : ℚ
  grants : ℕ
deriving DecidableEq, Repr

/-- Modelled from the spec: a freshly constructed limiter starts cold
with a full bucket at logical time zero. -/
def newLimiter (limit : Option ℚ) (burst : ℤ) : LimState :=
  ⟨limit, burst, (burst : ℚ), 0, 0⟩

/-- Token count after letting tokens accrue from the last update up to
time t, capped at burst. Under the unlimited rate the bucket is full. -/
def LimState.refill (s : LimState) (t : ℚ) : ℚ :=
  match s.limit with
  | none => (s.burst : ℚ)
  | some r => min (s.burst : ℚ) (s.tokens + r * (t - s.last))

/-- Time at which a token can be granted to a caller arriving at time t,
or none when a token can never become available (a bucket that cannot
reach one token: burst below one or a nonpositive finite rate). -/
def LimState.grantTime (s : LimState) (t : ℚ) : Option ℚ :=
  match s.limit with
  | none => some t
  | some r =>
    let tk := s.refill t
    if 1 ≤ tk then some t
    else if s.burst < 1 ∨ r ≤ 0 then none
    else some (t + (1 - tk) / r)

/-- Outcome of one acquire attempt: a token granted at a given time, a
denial observed at the time the signal fired, or blocking forever. -/
inductive WaitRes
  | ok (t : ℚ)
  | err (e : CtxErr) (t : ℚ)
  | never
deriving DecidableEq, Repr

/-- Limiter state after granting one token at time t: the bucket refills
up to t and one token is removed. Under the unlimited rate no token is
consumed. The grant is counted. -/
def LimState.consume (s : LimState) (t : ℚ) : LimState :=
  { s with
    tokens := match s.limit with
      | none => (s.burst : ℚ)
      | some _ => s.refill t - 1
    last := t
    grants := s.grants + 1 }

/-- Limiter state after a denied attempt observed at time t: tokens
accrue but none is consumed. -/
def LimState.advance (s : LimState) (t : ℚ) : LimState :=
  { s with tokens := s.refill t, last := t }

/-- Modelled from the spec: the blocking acquire of section 4.1. A
caller arriving at time now with context ctx receives a token as soon as
one becomes available unless the signal of ctx fires strictly first; a
context already done on arrival is denied at once; the denial carries
the reason the signal fired. -/
def limWait (s : LimState) (ctx : Ctx) (now : ℚ) : WaitRes × LimState :=
  match ctx.fires with
  | some f =>
    if f ≤ now then (.err ctx.reason now, s.advance now)
    else
      match s.grantTime now with
      | none => (.err ctx.reason f, s.advance f)
      | some g =>
        if f < g then (.err ctx.reason f, s.advance f)
        else (.ok g, s.consume g)
  | none =>
    match s.grantTime now with
    | none => (.never, s)
    | some g => (.ok g, s.consume g)

/-- Errors surfaced by database operations. -/
inductive SqlError
  | ctxErr (e : CtxErr)
  | closed
  | dbErr (msg : String)
deriving DecidableEq, Repr

/-- A single-row handle: the value produced when the row is scanned,
carrying a deferred error when the query failed. -/
abbrev Row := Except SqlError ℕ

/-- Modelled from the spec: behavior of the open underlying connection,
one answer per operation of the section 6 collaborator interface.
Row sets, execution results, prepared statements and sub-connections are
abstract natural-number handles. -/
structure DBBehavior where
  onQuery : String → List String → Except SqlError ℕ
  onExec : String → List String → Except SqlError ℕ
  onPrep : String → Except SqlError ℕ
  onQueryRow : String → List String → Row
  onClose : Except SqlError Unit
  onPing : Except SqlError Unit
  onConn : Except SqlError ℕ

/-- The underlying database handle: an identity plus its behavior. -/
structure SqlDB where
  handle : ℕ
  behavior : DBBehavior

/-- A call recorded against the underlying connection. -/
inductive DBCall
  | query (ctx : Ctx) (t : ℚ) (q : String) (args : List String)
  | queryRow (ctx : Ctx) (t : ℚ) (q : String) (args : List String)
  | exec (ctx : Ctx) (t : ℚ) (q : String) (args : List String)
  | prep (ctx : Ctx) (t : ℚ) (q : String)
  | close
  | ping
  | conn (ctx : Ctx) (t : ℚ)
deriving DecidableEq, Repr

/-- Mutable state threaded through a run: the shared limiter state, the
closed flag of the underlying handle, the log of calls that reached the
underlying connection, and the number of acquire attempts made through
the facade. -/
structure World where
  lim : LimState
  closed : Bool
  log : List DBCall
  waits : ℕ
deriving Repr

/-- Result of the query operation of the underlying connection invoked
at time t: a closed handle fails, a done context fails with the context
error, otherwise the behavior answers. -/
def SqlDB.queryResult (db : SqlDB) (closed : Bool) (ctx : Ctx) (t : ℚ)
    (q : String) (args : List String) : Except SqlError ℕ :=
  if closed then .error .closed
  else if ctxDone ctx t then .error (.ctxErr ctx.reason)
  else db.behavior.onQuery q args

/-- Result of the exec operation of the underlying connection. -/
def SqlDB.execResult (db : SqlDB) (closed : Bool) (ctx : Ctx) (t : ℚ)
    (q : String) (args : List String) : Except SqlError ℕ :=
  if closed then .error .closed
  else if ctxDone ctx t then .error (.ctxErr ctx.reason)
  else db.behavior.onExec q args

/-- Result of the prepare operation of the underlying connection. -/
def SqlDB.prepResult (db : SqlDB) (closed : Bool) (ctx : Ctx) (t : ℚ)
    (q : String) : Except SqlError ℕ :=
  if closed then .error .closed
  else if ctxDone ctx t then .error (.ctxErr ctx.reason)
  else db.behavior.onPrep q

/-- Row returned by the single-row query of the underlying connection:
error reporting is deferred into the row itself, as the collaborator
contract describes. -/
def SqlDB.rowResult (db : SqlDB) (closed : Bool) (ctx : Ctx) (t : ℚ)
    (q : String) (args : List String) : Row :=
  if closed then .error .closed
  else if ctxDone ctx t then .error (.ctxErr ctx.reason)
  else db.behavior.onQueryRow q args

/-- Result of the sub-connection operation of the underlying
connection. -/
def SqlDB.connResult (db : SqlDB) (closed : Bool) (ctx : Ctx) (t : ℚ) :
    Except SqlError ℕ :=
  if closed then .error .closed
  else if ctxDone ctx t then .error (.ctxErr ctx.reason)
  else db.behavior.onConn

/-- The query operation on the underlying handle, logging the call. -/
def SqlDB.queryContextW (db : SqlDB) (w : World) (ctx : Ctx) (t : ℚ)
    (q : String) (args : List String) : Except SqlError ℕ × World :=
  (db.queryResult w.closed ctx t q args,
   { w with log := w.log ++ [.query ctx t q args] })

/-- The single-row query operation on the underlying handle, logging the
call. -/
def SqlDB.queryRowContextW (db : SqlDB) (w : World) (ctx : Ctx) (t : ℚ)
    (q : String) (args : List String) : Row × World :=
  (db.rowResult w.closed ctx t q args,
   { w with log := w.log ++ [.queryRow ctx t q args] })

/-- The exec operation on the underlying handle, logging the call. -/
def SqlDB.execContextW (db : SqlDB) (w : World) (ctx : Ctx) (t : ℚ)
    (q : String) (args : List String) : Except SqlError ℕ × World :=
  (db.execResult w.closed ctx t q args,
   { w with log := w.log ++ [.exec ctx t q args] })

/-- The prepare operation on the underlying handle, logging the call. -/
def SqlDB.prepareContextW (db : SqlDB) (w : World) (ctx : Ctx) (t : ℚ)
    (q : String) : Except SqlError ℕ × World :=
  (db.prepResult w.closed ctx t q,
   { w with log := w.log ++ [.prep ctx t q] })

/-- The close operation on the underlying handle: returns the behavior
answer and marks the handle closed. -/
def SqlDB.closeW (db : SqlDB) (w : World) : Except SqlError Unit × World :=
  (db.behavior.onClose, { w with closed := true, log := w.log ++ [.close] })

/-- The ping operation on the underlying handle. -/
def SqlDB.pingW (db : SqlDB) (w : World) : Except SqlError Unit × World :=
  (if w.closed then .error .closed else db.behavior.onPing,
   { w with log := w.log ++ [.ping] })

/-- The sub-connection operation on the underlying handle. -/
def SqlDB.connW (db : SqlDB) (w : World) (ctx : Ctx) (t : ℚ) :
    Except SqlError ℕ × World :=
  (db.connResult w.closed ctx t, { w with log := w.log ++ [.conn ctx t] })

/-- The RateLimitedDB facade of main.go: a reference to the underlying
database handle and to one limiter, whose mutable state lives in the
World threaded through the operations. -/
structure RateLimitedDB where
  db : SqlDB
  limiter : LimState

/-- Wrap of main.go: builds the facade around db with a fresh limiter
made from the given rate and burst, with no validation. -/
def Wrap (db : SqlDB) (limit : Option ℚ) (burst : ℤ) : RateLimitedDB :=
  ⟨db, newLimiter limit burst⟩

/-- Raw of main.go: the escape hatch returning the wrapped handle
itself. -/
def RateLimitedDB.Raw (r : RateLimitedDB) : SqlDB :=
  r.db

/-- wait of main.go: blocks on the limiter shared by the facade; one
acquire attempt is counted in the world. -/
def RateLimitedDB.wait (_r : RateLimitedDB) (w : World) (ctx : Ctx)
    (now : ℚ) : WaitRes × World :=
  ((limWait w.lim ctx now).1,
   { w with lim := (limWait w.lim ctx now).2, waits := w.waits + 1 })

/-- Outcome of a facade call: a returned value, or the call blocking
forever inside the acquire step. -/
inductive OpRes (α : Type)
  | ret (v : α)
  | hangs
deriving DecidableEq, Repr

/-- QueryContext of main.go: acquire a token, return the acquire error
on failure, otherwise delegate to the underlying query. -/
def RateLimitedDB.QueryContext (r : RateLimitedDB) (w : World) (ctx : Ctx)
    (now : ℚ) (q : String) (args : List String) :
    OpRes (Except SqlError ℕ) × World :=
  let wr := r.wait w ctx now
  match wr.1 with
  | .ok g =>
    let res := r.db.queryContextW wr.2 ctx g q args
    (.ret res.1, res.2)
  | .err e _ => (.ret (.error (.ctxErr e)), wr.2)
  | .never => (.hangs, wr.2)

/-- QueryRowContext of main.go: the acquire error is discarded and the
underlying single-row query is invoked unconditionally whenever the
acquire step returns. -/
def RateLimitedDB.QueryRowContext (r : RateLimitedDB) (w : World)
    (ctx : Ctx) (now : ℚ) (q : String) (args : List String) :
    OpRes Row × World :=
  let wr := r.wait w ctx now
  match wr.1 with
  | .ok g =>
    let res := r.db.queryRowContextW wr.2 ctx g q args
    (.ret res.1, res.2)
  | .err _ t =>
    let res := r.db.queryRowContextW wr.2 ctx t q args
    (.ret res.1, res.2)
  | .never => (.hangs, wr.2)

/-- ExecContext of main.go: acquire a token, return the acquire error on
failure, otherwise delegate to the underlying exec. -/
def RateLimitedDB.ExecContext (r : RateLimitedDB) (w : World) (ctx : Ctx)
    (now : ℚ) (q : String) (args : List String) :
    OpRes (Except SqlError ℕ) × World :=
  let wr := r.wait w ctx now
  match wr.1 with
  | .ok g =>
    let res := r.db.execContextW wr.2 ctx g q args
    (.ret res.1, res.2)
  | .err e _ => (.ret (.error (.ctxErr e)), wr.2)
  | .never => (.hangs, wr.2)

/-- PrepareContext of main.go: acquire a token, return the acquire error
on failure, otherwise delegate to the underlying prepare. -/
def RateLimitedDB.PrepareContext (r : RateLimitedDB) (w : World)
    (ctx : Ctx) (now : ℚ) (q : String) :
    OpRes (Except SqlError ℕ) × World :=
  let wr := r.wait w ctx now
  match wr.1 with
  | .ok g =>
    let res := r.db.prepareContextW wr.2 ctx g q
    (.ret res.1, res.2)
  | .err e _ => (.ret (.error (.ctxErr e)), wr.2)
  | .never => (.hangs, wr.2)

/-- Close of main.go: delegates directly to the underlying close,
ungated. -/
def RateLimitedDB.Close (r : RateLimitedDB) (w : World) :
    Except SqlError Unit × World :=
  r.db.closeW w

/-- Ping of main.go: delegates directly to the underlying ping,
ungated. -/
def RateLimitedDB.Ping (r : RateLimitedDB) (w : World) :
    Except SqlError Unit × World :=
  r.db.pingW w

/-- Conn of main.go: delegates directly to the underlying sub-connection
operation, ungated. -/
def RateLimitedDB.Conn (r : RateLimitedDB) (w : World) (ctx : Ctx)
    (t : ℚ) : Except SqlError ℕ × World :=
  r.db.connW w ctx t

/-- One step of a client session: a facade operation (g-prefixed) or an
operation invoked directly on the escape-hatch handle (r-prefixed). -/
inductive Op
  | gQuery (ctx : Ctx) (now : ℚ) (q : String) (args : List String)
  | gQueryRow (ctx : Ctx) (now : ℚ) (q : String) (args : List String)
  | gExec (ctx : Ctx) (now : ℚ) (q : String) (args : List String)
  | gPrep (ctx : Ctx) (now : ℚ) (q : String)
  | gClose
  | gPing
  | gConn (ctx : Ctx) (now : ℚ)
  | rQuery (ctx : Ctx) (now : ℚ) (q : String) (args : List String)
  | rQueryRow (ctx : Ctx) (now : ℚ) (q : String) (args : List String)
  | rExec (ctx : Ctx) (now : ℚ) (q : String) (args : List String)
  | rPrep (ctx : Ctx) (now : ℚ) (q : String)
  | rClose
  | rPing
  | rConn (ctx : Ctx) (now : ℚ)

/-- State transition of one client step against facade r. -/
def stepOp (r : RateLimitedDB) (w : World) : Op → World
  | .gQuery ctx now q args => (r.QueryContext w ctx now q args).2
  | .gQueryRow ctx now q args => (r.QueryRowContext w ctx now q args).2
  | .gExec ctx now q args => (r.ExecContext w ctx now q args).2
  | .gPrep ctx now q => (r.PrepareContext w ctx now q).2
  | .gClose => (r.Close w).2
  | .gPing => (r.Ping w).2
  | .gConn ctx now => (r.Conn w ctx now).2
  | .rQuery ctx now q args => (r.Raw.queryContextW w ctx now q args).2
  | .rQueryRow ctx now q args => (r.Raw.queryRowContextW w ctx now q args).2
  | .rExec ctx now q args => (r.Raw.execContextW w ctx now q args).2
  | .rPrep ctx now q => (r.Raw.prepareContextW w ctx now q).2
  | .rClose => (r.Raw.closeW w).2
  | .rPing => (r.Raw.pingW w).2
  | .rConn ctx now => (r.Raw.connW w ctx now).2

/-- Run a list of client steps in order. -/
def runOps (r : RateLimitedDB) (w : World) : List Op → World
  | [] => w
  | op :: rest => runOps r (stepOp r w op) rest

/-- Whether a step is one of the four gated facade operations. -/
def Op.isGated : Op → Bool
  | .gQuery _ _ _ _ => true
  | .gQueryRow _ _ _ _ => true
  | .gExec _ _ _ _ => true
  | .gPrep _ _ _ => true
  | _ => false

/-- Whether a step goes through the raw escape-hatch handle. -/
def Op.isRaw : Op → Bool
  | .rQuery _ _ _ _ => true
  | .rQueryRow _ _ _ _ => true
  | .rExec _ _ _ _ => true
  | .rPrep _ _ _ => true
  | .rClose => true
  | .rPing => true
  | .rConn _ _ => true
  | _ => false

/-- Whether the context of a gated step never fires; steps that are not
gated count as true. -/
def Op.noFire : Op → Bool
  | .gQuery ctx _ _ _ => ctx.fires.isNone
  | .gQueryRow ctx _ _ _ => ctx.fires.isNone
  | .gExec ctx _ _ _ => ctx.fires.isNone
  | .gPrep ctx _ _ => ctx.fires.isNone
  | _ => true

/-- Number of gated facade operations in a list of steps. -/
def gatedCount (ops : List Op) : ℕ :=
  (ops.filter Op.isGated).length

/-- A limiter configuration that can always eventually grant a token:
burst at least one and a positive (or unlimited) rate. -/
def limOK (s : LimState) : Bool :=
  (1 ≤ s.burst) && (match s.limit with
    | none => true
    | some r => decide (0 < r))

/-- Iterated acquisition against the limiter by a never-cancelling
caller sitting at logical time zero: the cold-start scenario. -/
def coldSteps (s : LimState) : ℕ → LimState
  | 0 => s
  | n + 1 => (limWait (coldSteps s n) ⟨none, .canceled⟩ 0).2

theorem limWait_err_spec (s : LimState) (c : Ctx) (n : ℚ) (e : CtxErr)
    (t : ℚ) (h : (limWait s c n).1 = .err e t) :
    e = c.reason ∧ ctxDone c t = true := by
  rcases c with ⟨fires, reason⟩
  cases fires with
  | none =>
    rcases hg : LimState.grantTime s n with _ | g <;>
      simp [limWait, hg] at h
  | some f =>
    by_cases h1 : f ≤ n
    · simp [limWait, h1] at h
      obtain ⟨he, ht⟩ := h
      subst he ht
      simp [ctxDone, h1]
    · rcases hg : LimState.grantTime s n with _ | g
      · simp [limWait, h1, hg] at h
        obtain ⟨he, ht⟩ := h
        subst he ht
        simp [ctxDone]
      · by_cases h2 : f < g <;> simp [limWait, h1, hg, h2] at h
        obtain ⟨he, ht⟩ := h
        subst he ht
        simp [ctxDone]

theorem limWait_frame (s : LimState) (c : Ctx) (n : ℚ) :
    (limWait s c n).2.burst = s.burst ∧ (limWait s c n).2.limit = s.limit := by
  rcases c with ⟨fires, reason⟩
  cases fires with
  | none =>
    rcases hg : LimState.grantTime s n with _ | g <;>
      simp [limWait, hg, LimState.consume]
  | some f =>
    by_cases h1 : f ≤ n
    · simp [limWait, h1, LimState.advance]
    · rcases hg : LimState.grantTime s n with _ | g
      · simp [limWait, h1, hg, LimState.advance]
      · by_cases h2 : f < g <;>
          simp [limWait, h1, hg, h2, LimState.advance, LimState.consume]

theorem grantTime_isSome (s : LimState) (t : ℚ) (hok : limOK s = true) :
    ∃ g, s.grantTime t = some g := by
  unfold limOK at hok
  rcases hl : s.limit with _ | r <;> rw [hl] at hok <;>
    simp only [Bool.and_eq_true, decide_eq_true_eq] at hok
  · exact ⟨t, by simp [LimState.grantTime, hl]⟩
  · by_cases h1 : 1 ≤ s.refill t
    · exact ⟨t, by simp [LimState.grantTime, hl, h1]⟩
    · refine ⟨t + (1 - s.refill t) / r, ?_⟩
      have hcond : ¬(s.burst < 1 ∨ r ≤ 0) := by
        push_neg
        exact ⟨hok.1, hok.2⟩
      simp [LimState.grantTime, hl, h1, hcond]

theorem limWait_noFire_ok (s : LimState) (c : Ctx) (n : ℚ)
    (hok : limOK s = true) (hf : c.fires = none) :
    ∃ g, (limWait s c n).1 = .ok g ∧
      (limWait s c n).2.grants = s.grants + 1 := by
  obtain ⟨g, hg⟩ := grantTime_isSome s n hok
  exact ⟨g, by simp [limWait, hf, hg, LimState.consume]⟩

theorem QueryContext_world (r : RateLimitedDB) (w : World) (ctx : Ctx)
    (now : ℚ) (q : String) (args : List String) :
    (r.QueryContext w ctx now q args).2.lim = (limWait w.lim ctx now).2 ∧
    (r.QueryContext w ctx now q args).2.waits = w.waits + 1 ∧
    (r.QueryContext w ctx now q args).2.closed = w.closed := by
  cases hw : (limWait w.lim ctx now).1 <;>
    simp [RateLimitedDB.QueryContext, RateLimitedDB.wait, hw,
      SqlDB.queryContextW]

theorem QueryRowContext_world (r : RateLimitedDB) (w : World) (ctx : Ctx)
    (now : ℚ) (q : String) (args : List String) :
    (r.QueryRowContext w ctx now q args).2.lim = (limWait w.lim ctx now).2 ∧
    (r.QueryRowContext w ctx now q args).2.waits = w.waits + 1 ∧
    (r.QueryRowContext w ctx now q args).2.closed = w.closed := by
  cases hw : (limWait w.lim ctx now).1 <;>
    simp [RateLimitedDB.QueryRowContext, RateLimitedDB.wait, hw,
      SqlDB.queryRowContextW]

theorem ExecContext_world (r : RateLimitedDB) (w : World) (ctx : Ctx)
    (now : ℚ) (q : String) (args : List String) :
    (r.ExecContext w ctx now q args).2.lim = (limWait w.lim ctx now).2 ∧
    (r.ExecContext w ctx now q args).2.waits = w.waits + 1 ∧
    (r.ExecContext w ctx now q args).2.closed = w.closed := by
  cases hw : (limWait w.lim ctx now).1 <;>
    simp [RateLimitedDB.ExecContext, RateLimitedDB.wait, hw,
      SqlDB.execContextW]

theorem PrepareContext_world (r : RateLimitedDB) (w : World) (ctx : Ctx)
    (now : ℚ) (q : String) :
    (r.PrepareContext w ctx now q).2.lim = (limWait w.lim ctx now).2 ∧
    (r.PrepareContext w ctx now q).2.waits = w.waits + 1 ∧
    (r.PrepareContext w ctx now q).2.closed = w.closed := by
  cases hw : (limWait w.lim ctx now).1 <;>
    simp [RateLimitedDB.PrepareContext, RateLimitedDB.wait, hw,
      SqlDB.prepareContextW]

/-- Sample behavior of the underlying connection, used for concrete
evaluations of the model. -/
def sampleB : DBBehavior :=
  ⟨fun _ _ => .ok 7, fun _ _ => .ok 3, fun _ => .ok 5,
   fun _ _ => .ok 9, .ok (), .ok (), .ok 4⟩

/-- Sample underlying database handle. -/
def sampleDB : SqlDB :=
  ⟨1, sampleB⟩

/-- Sample facade: rate one token per second, burst one. -/
def sampleFacade : RateLimitedDB :=
  Wrap sampleDB (some 1) 1

/-- Sample initial world: the fresh limiter of the sample facade, open
handle, empty call log. -/
def sampleWorld : World :=
  ⟨sampleFacade.limiter, false, [], 0⟩

/-- C1: when the context's cancellation or deadline signal fires before
a token is acquired, QueryContext, ExecContext and PrepareContext return
the context's own error (preserving the cancellation versus deadline
reason) synchronously, and the underlying connection is never invoked:
the call log is unchanged. -/
theorem gated_denied_returns_ctx_error_without_delegating
    (r : RateLimitedDB) (w : World) (ctx : Ctx) (now : ℚ)
    (q : String) (args : List String) (e : CtxErr) (t : ℚ)
    (h : (limWait w.lim ctx now).1 = .err e t) :
    (r.QueryContext w ctx now q args).1 =
      .ret (.error (.ctxErr ctx.reason)) ∧
    (r.QueryContext w ctx now q args).2.log = w.log ∧
    (r.ExecContext w ctx now q args).1 =
      .ret (.error (.ctxErr ctx.reason)) ∧
    (r.ExecContext w ctx now q args).2.log = w.log ∧
    (r.PrepareContext w ctx now q).1 =
      .ret (.error (.ctxErr ctx.reason)) ∧
    (r.PrepareContext w ctx now q).2.log = w.log := by
  obtain ⟨he, -⟩ := limWait_err_spec w.lim ctx now e t h
  subst he
  refine ⟨?_, ?_, ?_, ?_, ?_, ?_⟩ <;>
    simp [RateLimitedDB.QueryContext, RateLimitedDB.ExecContext,
      RateLimitedDB.PrepareContext, RateLimitedDB.wait, h]

/-- Witness for C1 at a context whose deadline has already passed at
call time, against the sample facade. -/
theorem gated_denied_returns_ctx_error_without_delegating_witness :
    (limWait sampleWorld.lim ⟨some 0, .deadlineExceeded⟩ 0).1 =
      .err .deadlineExceeded 0 ∧
    ((sampleFacade.QueryContext sampleWorld ⟨some 0, .deadlineExceeded⟩
        0 "select" []).1 =
      .ret (.error (.ctxErr .deadlineExceeded)) ∧
    (sampleFacade.QueryContext sampleWorld ⟨some 0, .deadlineExceeded⟩
        0 "select" []).2.log = sampleWorld.log ∧
    (sampleFacade.ExecContext sampleWorld ⟨some 0, .deadlineExceeded⟩
        0 "select" []).1 =
      .ret (.error (.ctxErr .deadlineExceeded)) ∧
    (sampleFacade.ExecContext sampleWorld ⟨some 0, .deadlineExceeded⟩
        0 "select" []).2.log = sampleWorld.log ∧
    (sampleFacade.PrepareContext sampleWorld ⟨some 0, .deadlineExceeded⟩
        0 "select").1 =
      .ret (.error (.ctxErr .deadlineExceeded)) ∧
    (sampleFacade.PrepareContext sampleWorld ⟨some 0, .deadlineExceeded⟩
        0 "select").2.log = sampleWorld.log) :=
  ⟨by decide,
   gated_denied_returns_ctx_error_without_delegating sampleFacade
     sampleWorld ⟨some 0, .deadlineExceeded⟩ 0 "select" []
     .deadlineExceeded 0 (by decide)⟩

/-- C4: when the token acquisition succeeds (granting at time g), each
gated operation delegates to the underlying connection with the same
context, statement and arguments (the call log gains exactly that one
call), and returns the underlying connection's result or error verbatim,
with no wrapping, translation, swallowing or retry. -/
theorem gated_granted_delegates_verbatim
    (r : RateLimitedDB) (w : World) (ctx : Ctx) (now : ℚ)
    (q : String) (args : List String) (g : ℚ)
    (h : (limWait w.lim ctx now).1 = .ok g) :
    (r.QueryContext w ctx now q args).1 =
      .ret (r.db.queryResult w.closed ctx g q args) ∧
    (r.QueryContext w ctx now q args).2.log =
      w.log ++ [.query ctx g q args] ∧
    (r.ExecContext w ctx now q args).1 =
      .ret (r.db.execResult w.closed ctx g q args) ∧
    (r.ExecContext w ctx now q args).2.log =
      w.log ++ [.exec ctx g q args] ∧
    (r.PrepareContext w ctx now q).1 =
      .ret (r.db.prepResult w.closed ctx g q) ∧
    (r.PrepareContext w ctx now q).2.log =
      w.log ++ [.prep ctx g q] ∧
    (r.QueryRowContext w ctx now q args).1 =
      .ret (r.db.rowResult w.closed ctx g q args) ∧
    (r.QueryRowContext w ctx now q args).2.log =
      w.log ++ [.queryRow ctx g q args] := by
  refine ⟨?_, ?_, ?_, ?_, ?_, ?_, ?_, ?_⟩ <;>
    simp [RateLimitedDB.QueryContext, RateLimitedDB.ExecContext,
      RateLimitedDB.PrepareContext, RateLimitedDB.QueryRowContext,
      RateLimitedDB.wait, h, SqlDB.queryContextW, SqlDB.execContextW,
      SqlDB.prepareContextW, SqlDB.queryRowContextW]

/-- Witness for C4 against the sample facade with a never-cancelling
context and a full bucket: the token is granted at time zero and the
sample behavior answers pass through unchanged. -/
theorem gated_granted_delegates_verbatim_witness :
    (limWait sampleWorld.lim ⟨none, .canceled⟩ 0).1 = .ok 0 ∧
    ((sampleFacade.QueryContext sampleWorld ⟨none, .canceled⟩ 0
        "select" ["a"]).1 =
      .ret (sampleFacade.db.queryResult sampleWorld.closed
        ⟨none, .canceled⟩ 0 "select" ["a"]) ∧
    (sampleFacade.QueryContext sampleWorld ⟨none, .canceled⟩ 0
        "select" ["a"]).2.log =
      sampleWorld.log ++ [.query ⟨none, .canceled⟩ 0 "select" ["a"]] ∧
    (sampleFacade.ExecContext sampleWorld ⟨none, .canceled⟩ 0
        "select" ["a"]).1 =
      .ret (sampleFacade.db.execResult sampleWorld.closed
        ⟨none, .canceled⟩ 0 "select" ["a"]) ∧
    (sampleFacade.ExecContext sampleWorld ⟨none, .canceled⟩ 0
        "select" ["a"]).2.log =
      sampleWorld.log ++ [.exec ⟨none, .canceled⟩ 0 "select" ["a"]] ∧
    (sampleFacade.PrepareContext sampleWorld ⟨none, .canceled⟩ 0
        "select").1 =
      .ret (sampleFacade.db.prepResult sampleWorld.closed
        ⟨none, .canceled⟩ 0 "select") ∧
    (sampleFacade.PrepareContext sampleWorld ⟨none, .canceled⟩ 0
        "select").2.log =
      sampleWorld.log ++ [.prep ⟨none, .canceled⟩ 0 "select"] ∧
    (sampleFacade.QueryRowContext sampleWorld ⟨none, .canceled⟩ 0
        "select" ["a"]).1 =
      .ret (sampleFacade.db.rowResult sampleWorld.closed
        ⟨none, .canceled⟩ 0 "select" ["a"]) ∧
    (sampleFacade.QueryRowContext sampleWorld ⟨none, .canceled⟩ 0
        "select" ["a"]).2.log =
      sampleWorld.log ++ [.queryRow ⟨none, .canceled⟩ 0 "select" ["a"]]) :=
  ⟨by norm_num [limWait, LimState.grantTime, LimState.refill, sampleWorld,
     sampleFacade, sampleDB, Wrap, newLimiter, min_def],
   gated_granted_delegates_verbatim sampleFacade sampleWorld
     ⟨none, .canceled⟩ 0 "select" ["a"] 0
     (by norm_num [limWait, LimState.grantTime, LimState.refill,
        sampleWorld, sampleFacade, sampleDB, Wrap, newLimiter, min_def])⟩

/-- C3: QueryRowContext attempts the token-acquire step on every call
(one acquire attempt is counted), and when the acquire fails the failure
surfaces lazily: against an open underlying connection the returned row
carries the context's error, which the caller sees when scanning it. -/
theorem queryRow_denied_attempts_acquire_and_surfaces_lazily
    (r : RateLimitedDB) (w : World) (ctx : Ctx) (now : ℚ)
    (q : String) (args : List String) (e : CtxErr) (t : ℚ)
    (hopen_ : w.closed = false)
    (h : (limWait w.lim ctx now).1 = .err e t) :
    (r.QueryRowContext w ctx now q args).2.waits = w.waits + 1 ∧
    (r.QueryRowContext w ctx now q args).1 =
      .ret (.error (.ctxErr ctx.reason)) := by
  obtain ⟨he, hdone⟩ := limWait_err_spec w.lim ctx now e t h
  subst he
  refine ⟨?_, ?_⟩ <;>
    simp [RateLimitedDB.QueryRowContext, RateLimitedDB.wait, h,
      SqlDB.queryRowContextW, SqlDB.rowResult, hopen_, hdone]

/-- Witness for C3 at a context whose deadline has already passed,
against the open sample world. -/
theorem queryRow_denied_attempts_acquire_and_surfaces_lazily_witness :
    sampleWorld.closed = false ∧
    (limWait sampleWorld.lim ⟨some 0, .canceled⟩ 0).1 =
      .err .canceled 0 ∧
    ((sampleFacade.QueryRowContext sampleWorld ⟨some 0, .canceled⟩ 0
        "select" []).2.waits = sampleWorld.waits + 1 ∧
    (sampleFacade.QueryRowContext sampleWorld ⟨some 0, .canceled⟩ 0
        "select" []).1 = .ret (.error (.ctxErr .canceled))) :=
  ⟨by decide, by decide,
   queryRow_denied_attempts_acquire_and_surfaces_lazily sampleFacade
     sampleWorld ⟨some 0, .canceled⟩ 0 "select" [] .canceled 0
     (by decide) (by decide)⟩

/-- C9: whenever the acquire step returns (it grants or is denied, the
only behaviors a context that can fire or a grantable bucket allows),
QueryRowContext invokes the underlying single-row query exactly once,
appending exactly one call to the log, and returns the underlying row
unchanged: the acquire error is discarded and delegation happens even on
acquisition failure. -/
theorem queryRow_always_delegates_once
    (r : RateLimitedDB) (w : World) (ctx : Ctx) (now : ℚ)
    (q : String) (args : List String)
    (h : (limWait w.lim ctx now).1 ≠ .never) :
    ∃ t, (r.QueryRowContext w ctx now q args).1 =
        .ret (r.db.rowResult w.closed ctx t q args) ∧
      (r.QueryRowContext w ctx now q args).2.log =
        w.log ++ [.queryRow ctx t q args] := by
  cases hw : (limWait w.lim ctx now).1 with
  | ok g =>
    exact ⟨g, by simp [RateLimitedDB.QueryRowContext, RateLimitedDB.wait,
      hw, SqlDB.queryRowContextW]⟩
  | err e t =>
    exact ⟨t, by simp [RateLimitedDB.QueryRowContext, RateLimitedDB.wait,
      hw, SqlDB.queryRowContextW]⟩
  | never => exact absurd hw h

/-- Witness for C9 at a context already cancelled at call time: the
acquire step is denied, yet the underlying single-row query is invoked
once and its row is returned. -/
theorem queryRow_always_delegates_once_witness :
    (limWait sampleWorld.lim ⟨some 0, .canceled⟩ 0).1 ≠ .never ∧
    ∃ t, (sampleFacade.QueryRowContext sampleWorld ⟨some 0, .canceled⟩ 0
        "select" []).1 =
      .ret (sampleFacade.db.rowResult sampleWorld.closed
        ⟨some 0, .canceled⟩ t "select" []) ∧
    (sampleFacade.QueryRowContext sampleWorld ⟨some 0, .canceled⟩ 0
        "select" []).2.log =
      sampleWorld.log ++ [.queryRow ⟨some 0, .canceled⟩ t "select" []] :=
  ⟨by decide,
   queryRow_always_delegates_once sampleFacade sampleWorld
     ⟨some 0, .canceled⟩ 0 "select" [] (by decide)⟩

/-- C5: the escape hatch is a round-trip identity: Raw applied to the
facade built by Wrap over db returns db itself, and operations invoked
directly on that handle never touch the limiter state or the acquire
counter. -/
theorem raw_roundtrip_identity_bypasses_limiter
    (db : SqlDB) (limit : Option ℚ) (burst : ℤ) (w : World) (ctx : Ctx)
    (t : ℚ) (q : String) (args : List String) :
    (Wrap db limit burst).Raw = db ∧
    (db.queryContextW w ctx t q args).2.lim = w.lim ∧
    (db.queryContextW w ctx t q args).2.waits = w.waits ∧
    (db.queryRowContextW w ctx t q args).2.lim = w.lim ∧
    (db.queryRowContextW w ctx t q args).2.waits = w.waits ∧
    (db.execContextW w ctx t q args).2.lim = w.lim ∧
    (db.execContextW w ctx t q args).2.waits = w.waits ∧
    (db.prepareContextW w ctx t q).2.lim = w.lim ∧
    (db.prepareContextW w ctx t q).2.waits = w.waits ∧
    (db.closeW w).2.lim = w.lim ∧
    (db.closeW w).2.waits = w.waits ∧
    (db.pingW w).2.lim = w.lim ∧
    (db.pingW w).2.waits = w.waits ∧
    (db.connW w ctx t).2.lim = w.lim ∧
    (db.connW w ctx t).2.waits = w.waits := by
  refine ⟨rfl, ?_, ?_, ?_, ?_, ?_, ?_, ?_, ?_, ?_, ?_, ?_, ?_, ?_, ?_⟩ <;>
    simp [SqlDB.queryContextW, SqlDB.queryRowContextW, SqlDB.execContextW,
      SqlDB.prepareContextW, SqlDB.closeW, SqlDB.pingW, SqlDB.connW]

/-- C6: Close, Ping and Conn are exactly the corresponding underlying
operations, for every world including one whose bucket is exhausted:
they never go through the limiter and never count an acquire attempt. -/
theorem close_ping_conn_delegate_ungated
    (r : RateLimitedDB) (w : World) (ctx : Ctx) (t : ℚ) :
    r.Close w = r.db.closeW w ∧
    (r.Close w).2.lim = w.lim ∧
    (r.Close w).2.waits = w.waits ∧
    r.Ping w = r.db.pingW w ∧
    (r.Ping w).2.lim = w.lim ∧
    (r.Ping w).2.waits = w.waits ∧
    r.Conn w ctx t = r.db.connW w ctx t ∧
    (r.Conn w ctx t).2.lim = w.lim ∧
    (r.Conn w ctx t).2.waits = w.waits := by
  refine ⟨rfl, ?_, ?_, rfl, ?_, ?_, rfl, ?_, ?_⟩ <;>
    simp [RateLimitedDB.Close, RateLimitedDB.Ping, RateLimitedDB.Conn,
      SqlDB.closeW, SqlDB.pingW, SqlDB.connW]

/-- C8: Wrap validates nothing: for every handle, every rate and every
integer burst, including nonpositive bursts, it totally returns a facade
whose db field is the given handle and whose limiter is the fresh
limiter built from exactly the given rate and burst. -/
theorem wrap_total_no_validation
    (db : SqlDB) (limit : Option ℚ) (burst : ℤ) :
    (Wrap db limit burst).db = db ∧
    (Wrap db limit burst).limiter = newLimiter limit burst ∧
    (Wrap db limit burst).limiter.limit = limit ∧
    (Wrap db limit burst).limiter.burst = burst := by
  refine ⟨rfl, rfl, rfl, rfl⟩

/-- C10: the facade is stateless: Close leaves the limiter untouched and
only closes the underlying handle, and every gated operation issued
after Close still passes through the limiter (the acquire attempt is
counted) before surfacing the underlying connection's closed-handle
error, QueryRowContext carrying it inside the returned row. -/
theorem facade_stateless_gated_after_close
    (r : RateLimitedDB) (w : World) (ctx : Ctx) (now : ℚ)
    (q : String) (args : List String) (g : ℚ)
    (h : (limWait (r.Close w).2.lim ctx now).1 = .ok g) :
    (r.Close w).2.lim = w.lim ∧
    (r.Close w).2.closed = true ∧
    (r.QueryContext (r.Close w).2 ctx now q args).1 =
      .ret (.error .closed) ∧
    (r.QueryContext (r.Close w).2 ctx now q args).2.waits =
      (r.Close w).2.waits + 1 ∧
    (r.ExecContext (r.Close w).2 ctx now q args).1 =
      .ret (.error .closed) ∧
    (r.ExecContext (r.Close w).2 ctx now q args).2.waits =
      (r.Close w).2.waits + 1 ∧
    (r.PrepareContext (r.Close w).2 ctx now q).1 =
      .ret (.error .closed) ∧
    (r.PrepareContext (r.Close w).2 ctx now q).2.waits =
      (r.Close w).2.waits + 1 ∧
    (r.QueryRowContext (r.Close w).2 ctx now q args).1 =
      .ret (.error .closed) ∧
    (r.QueryRowContext (r.Close w).2 ctx now q args).2.waits =
      (r.Close w).2.waits + 1 := by
  refine ⟨?_, ?_, ?_, ?_, ?_, ?_, ?_, ?_, ?_, ?_⟩ <;>
    simp [RateLimitedDB.Close, SqlDB.closeW, RateLimitedDB.QueryContext,
      RateLimitedDB.ExecContext, RateLimitedDB.PrepareContext,
      RateLimitedDB.QueryRowContext, RateLimitedDB.wait,
      SqlDB.queryContextW, SqlDB.queryResult, SqlDB.execContextW,
      SqlDB.execResult, SqlDB.prepareContextW, SqlDB.prepResult,
      SqlDB.queryRowContextW, SqlDB.rowResult, h] at h ⊢

/-- Witness for C10 against the sample facade: after Close the cold
bucket still grants a token at time zero and each of the four gated
operations surfaces the closed-handle error. -/
theorem facade_stateless_gated_after_close_witness :
    (limWait (sampleFacade.Close sampleWorld).2.lim ⟨none, .canceled⟩
        0).1 = .ok 0 ∧
    ((sampleFacade.Close sampleWorld).2.lim = sampleWorld.lim ∧
    (sampleFacade.Close sampleWorld).2.closed = true ∧
    (sampleFacade.QueryContext (sampleFacade.Close sampleWorld).2
        ⟨none, .canceled⟩ 0 "select" []).1 = .ret (.error .closed) ∧
    (sampleFacade.QueryContext (sampleFacade.Close sampleWorld).2
        ⟨none, .canceled⟩ 0 "select" []).2.waits =
      (sampleFacade.Close sampleWorld).2.waits + 1 ∧
    (sampleFacade.ExecContext (sampleFacade.Close sampleWorld).2
        ⟨none, .canceled⟩ 0 "select" []).1 = .ret (.error .closed) ∧
    (sampleFacade.ExecContext (sampleFacade.Close sampleWorld).2
        ⟨none, .canceled⟩ 0 "select" []).2.waits =
      (sampleFacade.Close sampleWorld).2.waits + 1 ∧
    (sampleFacade.PrepareContext (sampleFacade.Close sampleWorld).2
        ⟨none, .canceled⟩ 0 "select").1 = .ret (.error .closed) ∧
    (sampleFacade.PrepareContext (sampleFacade.Close sampleWorld).2
        ⟨none, .canceled⟩ 0 "select").2.waits =
      (sampleFacade.Close sampleWorld).2.waits + 1 ∧
    (sampleFacade.QueryRowContext (sampleFacade.Close sampleWorld).2
        ⟨none, .canceled⟩ 0 "select" []).1 = .ret (.error .closed) ∧
    (sampleFacade.QueryRowContext (sampleFacade.Close sampleWorld).2
        ⟨none, .canceled⟩ 0 "select" []).2.waits =
      (sampleFacade.Close sampleWorld).2.waits + 1) :=
  ⟨by norm_num [limWait, LimState.grantTime, LimState.refill,
     RateLimitedDB.Close, SqlDB.closeW, sampleWorld, sampleFacade,
     sampleDB, Wrap, newLimiter, min_def],
   facade_stateless_gated_after_close sampleFacade sampleWorld
     ⟨none, .canceled⟩ 0 "select" [] 0
     (by norm_num [limWait, LimState.grantTime, LimState.refill,
        RateLimitedDB.Close, SqlDB.closeW, sampleWorld, sampleFacade,
        sampleDB, Wrap, newLimiter, min_def])⟩

theorem stepOp_lim_frame (r : RateLimitedDB) (w : World) (op : Op) :
    (stepOp r w op).lim.burst = w.lim.burst ∧
    (stepOp r w op).lim.limit = w.lim.limit := by
  cases op with
  | gQuery ctx now q args =>
    have h1 := (QueryContext_world r w ctx now q args).1
    simp only [stepOp, h1]
    exact limWait_frame w.lim ctx now
  | gQueryRow ctx now q args =>
    have h1 := (QueryRowContext_world r w ctx now q args).1
    simp only [stepOp, h1]
    exact limWait_frame w.lim ctx now
  | gExec ctx now q args =>
    have h1 := (ExecContext_world r w ctx now q args).1
    simp only [stepOp, h1]
    exact limWait_frame w.lim ctx now
  | gPrep ctx now q =>
    have h1 := (PrepareContext_world r w ctx now q).1
    simp only [stepOp, h1]
    exact limWait_frame w.lim ctx now
  | gClose => simp [stepOp, RateLimitedDB.Close, SqlDB.closeW]
  | gPing => simp [stepOp, RateLimitedDB.Ping, SqlDB.pingW]
  | gConn ctx now => simp [stepOp, RateLimitedDB.Conn, SqlDB.connW]
  | rQuery ctx now q args =>
    simp [stepOp, RateLimitedDB.Raw, SqlDB.queryContextW]
  | rQueryRow ctx now q args =>
    simp [stepOp, RateLimitedDB.Raw, SqlDB.queryRowContextW]
  | rExec ctx now q args =>
    simp [stepOp, RateLimitedDB.Raw, SqlDB.execContextW]
  | rPrep ctx now q =>
    simp [stepOp, RateLimitedDB.Raw, SqlDB.prepareContextW]
  | rClose => simp [stepOp, RateLimitedDB.Raw, SqlDB.closeW]
  | rPing => simp [stepOp, RateLimitedDB.Raw, SqlDB.pingW]
  | rConn ctx now => simp [stepOp, RateLimitedDB.Raw, SqlDB.connW]

theorem stepOp_limOK (r : RateLimitedDB) (w : World) (op : Op) :
    limOK (stepOp r w op).lim = limOK w.lim := by
  obtain ⟨h1, h2⟩ := stepOp_lim_frame r w op
  simp [limOK, h1, h2]

theorem stepOp_grants (r : RateLimitedDB) (w : World) (op : Op)
    (hok : limOK w.lim = true) (hf : op.noFire = true) :
    (stepOp r w op).lim.grants =
      w.lim.grants + (if op.isGated then 1 else 0) := by
  cases op with
  | gQuery ctx now q args =>
    have hfn : ctx.fires = none := by
      simpa [Op.noFire, Option.isNone_iff_eq_none] using hf
    obtain ⟨g, hg, hgr⟩ := limWait_noFire_ok w.lim ctx now hok hfn
    have h1 := (QueryContext_world r w ctx now q args).1
    simp only [stepOp, h1, hgr, Op.isGated, if_true]
  | gQueryRow ctx now q args =>
    have hfn : ctx.fires = none := by
      simpa [Op.noFire, Option.isNone_iff_eq_none] using hf
    obtain ⟨g, hg, hgr⟩ := limWait_noFire_ok w.lim ctx now hok hfn
    have h1 := (QueryRowContext_world r w ctx now q args).1
    simp only [stepOp, h1, hgr, Op.isGated, if_true]
  | gExec ctx now q args =>
    have hfn : ctx.fires = none := by
      simpa [Op.noFire, Option.isNone_iff_eq_none] using hf
    obtain ⟨g, hg, hgr⟩ := limWait_noFire_ok w.lim ctx now hok hfn
    have h1 := (ExecContext_world r w ctx now q args).1
    simp only [stepOp, h1, hgr, Op.isGated, if_true]
  | gPrep ctx now q =>
    have hfn : ctx.fires = none := by
      simpa [Op.noFire, Option.isNone_iff_eq_none] using hf
    obtain ⟨g, hg, hgr⟩ := limWait_noFire_ok w.lim ctx now hok hfn
    have h1 := (PrepareContext_world r w ctx now q).1
    simp only [stepOp, h1, hgr, Op.isGated, if_true]
  | gClose => simp [stepOp, RateLimitedDB.Close, SqlDB.closeW, Op.isGated]
  | gPing => simp [stepOp, RateLimitedDB.Ping, SqlDB.pingW, Op.isGated]
  | gConn ctx now =>
    simp [stepOp, RateLimitedDB.Conn, SqlDB.connW, Op.isGated]
  | rQuery ctx now q args =>
    simp [stepOp, RateLimitedDB.Raw, SqlDB.queryContextW, Op.isGated]
  | rQueryRow ctx now q args =>
    simp [stepOp, RateLimitedDB.Raw, SqlDB.queryRowContextW, Op.isGated]
  | rExec ctx now q args =>
    simp [stepOp, RateLimitedDB.Raw, SqlDB.execContextW, Op.isGated]
  | rPrep ctx now q =>
    simp [stepOp, RateLimitedDB.Raw, SqlDB.prepareContextW, Op.isGated]
  | rClose => simp [stepOp, RateLimitedDB.Raw, SqlDB.closeW, Op.isGated]
  | rPing => simp [stepOp, RateLimitedDB.Raw, SqlDB.pingW, Op.isGated]
  | rConn ctx now =>
    simp [stepOp, RateLimitedDB.Raw, SqlDB.connW, Op.isGated]

theorem stepOp_raw_preserves_lim (r : RateLimitedDB) (w : World)
    (op : Op) (h : op.isRaw = true) : (stepOp r w op).lim = w.lim := by
  cases op <;> simp_all [stepOp, Op.isRaw, RateLimitedDB.Raw,
    SqlDB.queryContextW, SqlDB.queryRowContextW, SqlDB.execContextW,
    SqlDB.prepareContextW, SqlDB.closeW, SqlDB.pingW, SqlDB.connW]

theorem runOps_grants (r : RateLimitedDB) (ops : List Op) :
    ∀ w : World, limOK w.lim = true → ops.all Op.noFire = true →
    (runOps r w ops).lim.grants = w.lim.grants + gatedCount ops := by
  induction ops with
  | nil => intro w _ _; simp [runOps, gatedCount]
  | cons op rest ih =>
    intro w hok hf
    rw [List.all_cons, Bool.and_eq_true] at hf
    have hstep := stepOp_grants r w op hok hf.1
    have hok' : limOK (stepOp r w op).lim = true := by
      rw [stepOp_limOK]; exact hok
    have hrest := ih (stepOp r w op) hok' hf.2
    simp only [runOps] at hrest ⊢
    rw [hrest, hstep]
    by_cases hop : op.isGated = true
    · simp [gatedCount, List.filter_cons, hop]
      omega
    · simp [gatedCount, List.filter_cons, hop]

/-- C2: over every sequence of client steps whose gated operations carry
never-cancelling contexts, against a limiter that can always grant
(burst at least one, positive or unlimited rate), the number of tokens
handed out grows by exactly one per gated facade operation — Close,
Ping, Conn and raw steps contribute nothing — and any single raw
escape-hatch step leaves the limiter state entirely unchanged. -/
theorem facade_token_invariant
    (r : RateLimitedDB) (ops : List Op) (w : World)
    (hok : limOK w.lim = true) (hf : ops.all Op.noFire = true) :
    (runOps r w ops).lim.grants = w.lim.grants + gatedCount ops ∧
    ∀ op : Op, op.isRaw = true → (stepOp r w op).lim = w.lim :=
  ⟨runOps_grants r ops w hok hf,
   fun op h => stepOp_raw_preserves_lim r w op h⟩

/-- Interleaved gated and raw steps used in the concrete run of the
token invariant. -/
def opsList : List Op :=
  [.gQuery ⟨none, .canceled⟩ 0 "q1" [],
   .rExec ⟨none, .canceled⟩ 0 "q2" [],
   .gExec ⟨none, .canceled⟩ 0 "q3" [],
   .rPing,
   .gPrep ⟨none, .canceled⟩ 0 "q4"]

/-- Witness for C2: three gated steps interleaved with two raw steps
against the sample facade consume exactly three tokens, and a raw step
alone leaves the limiter untouched. -/
theorem facade_token_invariant_witness :
    limOK sampleWorld.lim = true ∧
    opsList.all Op.noFire = true ∧
    (runOps sampleFacade sampleWorld opsList).lim.grants =
      sampleWorld.lim.grants + gatedCount opsList ∧
    (stepOp sampleFacade sampleWorld Op.rPing).lim = sampleWorld.lim :=
  ⟨by decide, by decide,
   (facade_token_invariant sampleFacade opsList sampleWorld
     (by decide) (by decide)).1,
   (facade_token_invariant sampleFacade opsList sampleWorld
     (by decide) (by decide)).2 Op.rPing rfl⟩

theorem limWait_ready (B : ℤ) (R : ℚ) (tk : ℚ) (g : ℕ)
    (h1 : 1 ≤ tk) (h2 : tk ≤ (B : ℚ)) :
    limWait ⟨some R, B, tk, 0, g⟩ ⟨none, .canceled⟩ 0 =
      (.ok 0, ⟨some R, B, tk - 1, 0, g + 1⟩) := by
  have hre : LimState.refill ⟨some R, B, tk, 0, g⟩ 0 = tk := by
    simp only [LimState.refill]
    norm_num
    exact h2
  have hgt : LimState.grantTime ⟨some R, B, tk, 0, g⟩ 0 = some 0 := by
    simp only [LimState.grantTime, hre]
    rw [if_pos h1]
  simp [limWait, hgt, LimState.consume, hre]

theorem limWait_empty_bucket (B : ℤ) (R : ℚ) (g : ℕ)
    (hB : 1 ≤ B) (hR : 0 < R) :
    (limWait ⟨some R, B, 0, 0, g⟩ ⟨none, .canceled⟩ 0).1 =
      .ok (1 / R) := by
  have hB0 : (0 : ℚ) ≤ (B : ℚ) := by exact_mod_cast le_trans zero_le_one hB
  have hre : LimState.refill ⟨some R, B, 0, 0, g⟩ 0 = 0 := by
    simp only [LimState.refill]
    norm_num
    exact_mod_cast hB0
  have hcond : ¬(B < 1 ∨ R ≤ 0) := by
    push_neg
    exact ⟨hB, hR⟩
  have hgt : LimState.grantTime ⟨some R, B, 0, 0, g⟩ 0 = some (1 / R) := by
    simp only [LimState.grantTime, hre]
    rw [if_neg (by norm_num), if_neg hcond]
    norm_num
  simp [limWait, hgt]

theorem coldSteps_closed_form (B : ℤ) (R : ℚ) (_hB : 1 ≤ B) :
    ∀ k : ℕ, (k : ℤ) ≤ B →
      coldSteps (newLimiter (some R) B) k =
        ⟨some R, B, (B : ℚ) - (k : ℚ), 0, k⟩ := by
  intro k
  induction k with
  | zero => intro _; simp [coldSteps, newLimiter]
  | succ n ih =>
    intro hk
    have hn : (n : ℤ) ≤ B := by
      have : ((n : ℤ) + 1) ≤ B := by exact_mod_cast hk
      omega
    have hlt : (n : ℤ) < B := by
      have : ((n : ℤ) + 1) ≤ B := by exact_mod_cast hk
      omega
    have h1 : (1 : ℚ) ≤ (B : ℚ) - (n : ℚ) := by
      have : ((n : ℤ) : ℚ) + 1 ≤ ((B : ℤ) : ℚ) := by exact_mod_cast hlt
      push_cast at this ⊢
      linarith
    have h2 : (B : ℚ) - (n : ℚ) ≤ (B : ℚ) := by
      have : (0 : ℚ) ≤ (n : ℚ) := by positivity
      linarith
    rw [coldSteps, ih hn, limWait_ready B R ((B : ℚ) - (n : ℚ)) n h1 h2]
    simp only [LimState.mk.injEq, and_true, true_and]
    push_cast
    ring

/-- C7: from a cold start with burst B at least one and finite positive
rate R, each of the first B acquisitions by a never-cancelling caller at
time zero is granted instantaneously and decrements the token count by
exactly one, and the following acquisition is granted only at time 1/R:
the caller blocks for 1/R seconds. -/
theorem cold_start_grants_burst_then_blocks_one_over_rate
    (B : ℤ) (R : ℚ) (hB : 1 ≤ B) (hR : 0 < R) :
    (∀ k : ℕ, (k : ℤ) < B →
      (limWait (coldSteps (newLimiter (some R) B) k)
          ⟨none, .canceled⟩ 0).1 = .ok 0 ∧
      (coldSteps (newLimiter (some R) B) (k + 1)).tokens =
        (coldSteps (newLimiter (some R) B) k).tokens - 1) ∧
    (limWait (coldSteps (newLimiter (some R) B) B.toNat)
        ⟨none, .canceled⟩ 0).1 = .ok (1 / R) := by
  constructor
  · intro k hk
    have hkle : (k : ℤ) ≤ B := le_of_lt hk
    have hk1 : ((k + 1 : ℕ) : ℤ) ≤ B := by push_cast; omega
    have h1 : (1 : ℚ) ≤ (B : ℚ) - (k : ℚ) := by
      have : ((k : ℤ) : ℚ) + 1 ≤ ((B : ℤ) : ℚ) := by exact_mod_cast hk
      push_cast at this ⊢
      linarith
    have h2 : (B : ℚ) - (k : ℚ) ≤ (B : ℚ) := by
      have : (0 : ℚ) ≤ (k : ℚ) := by positivity
      linarith
    rw [coldSteps_closed_form B R hB k hkle,
      coldSteps_closed_form B R hB (k + 1) hk1,
      limWait_ready B R ((B : ℚ) - (k : ℚ)) k h1 h2]
    refine ⟨rfl, by push_cast; ring⟩
  · have hBnn : (0 : ℤ) ≤ B := le_trans zero_le_one hB
    have htn : ((B.toNat : ℕ) : ℤ) ≤ B := by
      rw [Int.toNat_of_nonneg hBnn]
    rw [coldSteps_closed_form B R hB B.toNat htn]
    have hz : (B : ℚ) - ((B.toNat : ℕ) : ℚ) = 0 := by
      have : ((B.toNat : ℕ) : ℤ) = B := Int.toNat_of_nonneg hBnn
      have hq : ((B.toNat : ℕ) : ℚ) = (B : ℚ) := by exact_mod_cast this
      rw [hq, sub_self]
    rw [hz]
    exact limWait_empty_bucket B R B.toNat hB hR

/-- Witness for C7 with burst one and rate two: the single burst token
is granted at time zero and decrements the count by one, and the second
acquisition is granted only at time one half. -/
theorem cold_start_grants_burst_then_blocks_one_over_rate_witness :
    (1 : ℤ) ≤ 1 ∧ (0 : ℚ) < 2 ∧
    ((limWait (coldSteps (newLimiter (some 2) 1) 0)
        ⟨none, .canceled⟩ 0).1 = .ok 0 ∧
     (coldSteps (newLimiter (some 2) 1) (0 + 1)).tokens =
       (coldSteps (newLimiter (some 2) 1) 0).tokens - 1) ∧
    (limWait (coldSteps (newLimiter (some 2) 1) (1 : ℤ).toNat)
        ⟨none, .canceled⟩ 0).1 = .ok (1 / 2) :=
  ⟨by norm_num, by norm_num,
   (cold_start_grants_burst_then_blocks_one_over_rate 1 2 (by norm_num)
     (by norm_num)).1 0 (by norm_num),
   (cold_start_grants_burst_then_blocks_one_over_rate 1 2 (by norm_num)
     (by norm_num)).2⟩
